import Mathlib

/-!
Shallow embedding of the multilingual product-search ranking engine
described in the repository (query preprocessing, weighted vector
construction, three-tier match selection, similarity thresholding,
business filtering, multi-factor ranking and pagination).

The pipeline is a SQL CTE chain evaluated over a catalog snapshot.  We
embed each CTE as a pure function over lists of product rows.  Values
computed by the external store (the full-text match test and the
similarity scores returned by the `average_highest_similarity` store
function, whose body is not part of the sources) are carried as opaque
per-row attributes, which is faithful because within one query
evaluation they are functions of the row alone.
-/

namespace Search

/-- One catalog row as seen by the search query, together with the
store-computed per-row facts for the current query: `hasTextMatch` is
the value of `code LIKE ANY(codes) OR EXISTS (tsvector @@ tsquery)`,
and the four similarity figures are the columns of the
`average_highest_similarity` lateral join result referenced by the
query (`avg_similarity`, `avg_similarity_without_worst` in the SELECT
lists, `min_similarity`, `min_similarity_without_worst` in the fuzzy
WHERE clause). -/
structure Product where
  id : Nat
  ean : Option String
  code : String
  isSearchBarEligibleByData : Bool
  isSearchBarEligibleByStock : Bool
  categoryPriority : Rat
  categoryZone : Option (List String)
  plc : String
  finishIds : List String
  hasTextMatch : Bool
  avg_similarity : Rat
  avg_similarity_without_worst : Rat
  min_similarity : Rat
  min_similarity_without_worst : Rat
deriving DecidableEq

/-- The request parameters of one search evaluation. -/
structure SearchArgs where
  catalog : List Product
  splitQ : List String
  zoneFilter : Option (List String)
  finishFilter : Option (List String)
  page : Nat
  limit : Nat

/-- `PRODUCTS_QUERY_SENSITIVITY = 0.35`. -/
def PRODUCTS_QUERY_SENSITIVITY : Rat := mkRat 35 100

/-- `PROMOTED_CODES = ['NQS_F4GM']`. -/
def PROMOTED_CODES : List String := ["NQS_F4GM"]

/-- The compound-code expansion:
`splitQ.reduce((previous, current, index) => { if (!splitQ[index + 1]) return [...previous, current]; return [...previous, current, current + "_" + splitQ[index + 1]] }, [])`.
The JS truthiness test makes the next token count as absent when it is
the empty string. -/
def perfectCodes : List String → List String
  | [] => []
  | [current] => [current]
  | current :: next :: rest =>
    if next = "" then current :: perfectCodes (next :: rest)
    else current :: (current ++ "_" ++ next) :: perfectCodes (next :: rest)

/-- `q.replace(/\W/g, '')`: keep only ASCII word characters. -/
def stripNonWord (s : String) : String :=
  String.mk (s.data.filter (fun c => c.isAlphanum || c = '_'))

/-- The tokens surviving `.map(q => q.replace(/\W/g, '')).filter(term => term.length > 0)`. -/
def tsQueryTokens (splitQ : List String) : List String :=
  (splitQ.map stripNonWord).filter (fun t => decide (0 < t.length))

/-- The per-token terms `term.length > 3 ? term.slice(0, term.length - 1) + ":*" : term + ":*"`. -/
def tsQueryTerms (splitQ : List String) : List String :=
  (tsQueryTokens splitQ).map
    (fun term => (if 3 < term.length then term.dropRight 1 else term) ++ ":*")

/-- The full-text search expression: the terms joined with `' | '`. -/
def tsQuery (splitQ : List String) : String :=
  String.intercalate " | " (tsQueryTerms splitQ)

/-- Splitting a character sequence at every space, the embedding of the
JS `split(' ')` (empty fragments are kept, as in JS). -/
def splitOnSpaceChars : List Char → List (List Char)
  | [] => [[]]
  | c :: cs =>
    if c = ' ' then [] :: splitOnSpaceChars cs
    else
      match splitOnSpaceChars cs with
      | [] => [[c]]
      | t :: ts => (c :: t) :: ts

/-- `value.split(' ')` on strings. -/
def splitSpaces (s : String) : List String :=
  (splitOnSpaceChars s.data).map String.mk

/-- The weighted tokens of one field:
`value.split(' ').filter(v => v).map((v, index) => (weight - index > 0 ? weight - index : 1) + ":" + v)`. -/
def weightedTokens (value : String) (weight : Int) : List String :=
  ((splitSpaces value).filter (fun v => v ≠ "")).mapIdx
    (fun index v =>
      toString (if 0 < weight - (index : Int) then weight - (index : Int) else 1) ++ ":" ++ v)

/-- `addWeightToString`: early return of falsy input, else the weighted
tokens joined with single spaces. -/
def addWeightToString (value : String) (weight : Int) : String :=
  if value = "" then value
  else String.intercalate " " (weightedTokens value weight)

/-- Modelled from the spec: `removeWordsBetweenFirstAndLast` is imported
from a module that is not part of the sources.  Per the spec it removes
connector words appearing strictly between the first and last token,
always preserving the first and last tokens, with exact-match
case-insensitive comparison against the connector set. -/
def removeConnectorsBetween (tokens : List String) (connectors : List String) : List String :=
  match tokens with
  | [] => []
  | [t] => [t]
  | t :: u :: rest =>
    t :: ((u :: rest).dropLast.filter
            (fun w => !(connectors.map String.toLower).contains w.toLower))
      ++ (u :: rest).getLast?.toList

/-- Modelled from the spec: the string-level wrapper of
`removeConnectorsBetween` (tokens are whitespace-separated words of the
query). -/
def removeWordsBetweenFirstAndLast (q : String) (connectors : List String) : String :=
  String.intercalate " " (removeConnectorsBetween ((splitSpaces q).filter (fun t => t ≠ "")) connectors)

/-- CTE `PreloadedQuery`: catalog rows with `isSearchBarEligibleByData = true`. -/
def PreloadedQuery (a : SearchArgs) : List Product :=
  a.catalog.filter (fun p => p.isSearchBarEligibleByData)

/-- The `exactMatchPriority` CASE of CTE `FilteredQueryBeforeCheck`:
2 when `ean = ANY(splitQ) OR code = ANY(perfectCodes)`, else 1 when
`code LIKE ANY(codes) OR EXISTS (fts)`, else 0.  A NULL ean matches
nothing. -/
def exactMatchPriority (splitQ : List String) (p : Product) : Nat :=
  if p.ean.any (fun e => splitQ.contains e) || (perfectCodes splitQ).contains p.code then 2
  else if p.hasTextMatch then 1
  else 0

/-- CTE `FilteredQuery`: rows with
`isSearchBarEligibleByStock = true OR exactMatchPriority = 2`. -/
def FilteredQuery (a : SearchArgs) : List Product :=
  (PreloadedQuery a).filter
    (fun p => p.isSearchBarEligibleByStock || exactMatchPriority a.splitQ p == 2)

/-- Column `has_exact` of CTE `HasExactMatch`. -/
def hasExact (a : SearchArgs) : Bool :=
  (FilteredQuery a).any (fun p => exactMatchPriority a.splitQ p == 2)

/-- Column `has_partial` of CTE `HasExactMatch`. -/
def hasPartialMatch (a : SearchArgs) : Bool :=
  (FilteredQuery a).any (fun p => exactMatchPriority a.splitQ p == 1)

/-- CTE `ExactAndPartialMatches`:
`(has_exact = 1 AND exactMatchPriority = 2) OR (has_exact = 0 AND has_partial = 1 AND exactMatchPriority = 1)`. -/
def ExactAndPartialMatches (a : SearchArgs) : List Product :=
  (FilteredQuery a).filter
    (fun p =>
      (hasExact a && exactMatchPriority a.splitQ p == 2) ||
      (!hasExact a && hasPartialMatch a && exactMatchPriority a.splitQ p == 1))

/-- CTE `SimilarityMatches`:
`has_exact = 0 AND has_partial = 0 AND (min_similarity > sensitivity OR min_similarity_without_worst > sensitivity)`. -/
def SimilarityMatches (a : SearchArgs) : List Product :=
  (FilteredQuery a).filter
    (fun p =>
      !hasExact a && !hasPartialMatch a &&
      (decide (PRODUCTS_QUERY_SENSITIVITY < p.min_similarity) ||
       decide (PRODUCTS_QUERY_SENSITIVITY < p.min_similarity_without_worst)))

/-- CTE `RankedResults`: `ExactAndPartialMatches UNION ALL SimilarityMatches`. -/
def RankedResults (a : SearchArgs) : List Product :=
  ExactAndPartialMatches a ++ SimilarityMatches a

/-- CTE `ProductsPool`: the optional zone filter
(`categoryZone IS NOT NULL AND categoryZone && ARRAY[zone]`). -/
def ProductsPool (a : SearchArgs) : List Product :=
  match a.zoneFilter with
  | none => RankedResults a
  | some zs =>
    (RankedResults a).filter
      (fun p =>
        match p.categoryZone with
        | none => false
        | some cz => cz.any (fun z => zs.contains z))

/-- CTE `FinalProductsPool`: the optional finish filter
(`EXISTS (pf."B" = id AND pf."A" = ANY(finish))`). -/
def FinalProductsPool (a : SearchArgs) : List Product :=
  match a.finishFilter with
  | none => ProductsPool a
  | some fs =>
    (ProductsPool a).filter (fun p => p.finishIds.any (fun f => fs.contains f))

/-- `CASE WHEN fp.code = ANY(PROMOTED_CODES) THEN 1 ELSE 0 END`. -/
def promotedFlag (p : Product) : Rat :=
  if PROMOTED_CODES.contains p.code then 1 else 0

/-- The `plcRank` column of CTE `PreloadedQuery`. -/
def plcRank (p : Product) : Rat :=
  if p.plc = "Nowość" then 1
  else if p.plc = "Normalny" then mkRat 1 2
  else 0

/-- The ORDER BY key of CTE `DataResults`, as a lexicographic tuple:
promoted flag, `avg_similarity`, `avg_similarity_without_worst`,
`categoryPriority`, `plcRank`, each compared descending. -/
def rankKey (p : Product) : Rat ×ₗ (Rat ×ₗ (Rat ×ₗ (Rat ×ₗ Rat))) :=
  toLex (promotedFlag p,
    toLex (p.avg_similarity,
      toLex (p.avg_similarity_without_worst,
        toLex (p.categoryPriority, plcRank p))))

/-- `p` may come before `q` in the ORDER BY when its key is at least the
key of `q` (descending sort). -/
def rankLE (p q : Product) : Bool :=
  decide (rankKey q ≤ rankKey p)

/-- The ordered results before pagination. -/
def sortedResults (a : SearchArgs) : List Product :=
  (FinalProductsPool a).mergeSort rankLE

/-- `OFFSET skip LIMIT limit` with `skip = (page - 1) * limit`. -/
def pageOf (l : List Product) (page limit : Nat) : List Product :=
  (l.drop ((page - 1) * limit)).take limit

/-- CTE `DataResults`: the ordered, paginated rows. -/
def DataResults (a : SearchArgs) : List Product :=
  pageOf (sortedResults a) a.page a.limit

/-- `pagesCount = Math.ceil(total_count / limit)`. -/
def pagesCount (total limit : Nat) : Nat :=
  Nat.ceil ((total : Rat) / (limit : Rat))

/-- CTEs `FlattenedCategoryZones` and `UniqueCategoryZones`: the distinct
zone tags of the tier-selected pool `RankedResults` (unnest of a NULL
array yields no rows). -/
def FlattenedCategoryZones (a : SearchArgs) : List String :=
  ((RankedResults a).flatMap (fun p => p.categoryZone.getD [])).dedup

/-- CTE `Finishes`: the distinct finish ids associated with the rows of
`ProductsPool`. -/
def finishesFacet (a : SearchArgs) : List String :=
  ((ProductsPool a).flatMap (fun p => p.finishIds)).dedup

/-- `total_count`: `SELECT COUNT(*) FROM FinalProductsPool`. -/
def totalCount (a : SearchArgs) : Nat :=
  (FinalProductsPool a).length

/-! Concrete fixtures used by witnesses and counterexamples. -/

/-- A stock-ineligible item whose ean equals a query token. -/
def pExact : Product :=
  ⟨1, some "X123", "C1", true, false, 0, some ["Z1"], "Nowość", ["F1"], false, 0, 0, 0, 0⟩

/-- An item whose avg figures exceed the threshold while its min figures do not. -/
def pFuzzy : Product :=
  ⟨2, none, "C2", true, true, 0, some ["Z1"], "Normalny", ["F1"], false, mkRat 1 2, mkRat 1 2, mkRat 1 10, mkRat 1 10⟩

/-- An item whose min figures exceed the threshold. -/
def pSim : Product :=
  ⟨3, none, "C3", true, true, 0, some ["Z2"], "Inny", ["F2"], false, mkRat 2 5, mkRat 2 5, mkRat 2 5, mkRat 2 5⟩

/-- A partial-match item in zone Z1 with finish F1. -/
def pZ1F1 : Product :=
  ⟨4, none, "C4", true, true, 0, some ["Z1"], "Normalny", ["F1"], true, 0, 0, 0, 0⟩

/-- A partial-match item in zone Z2 with finish F2. -/
def pZ2F2 : Product :=
  ⟨5, none, "C5", true, true, 0, some ["Z2"], "Inny", ["F2"], true, 0, 0, 0, 0⟩

/-- A partial-match item in zone Z1 with finish F2. -/
def pZ1F2 : Product :=
  ⟨6, none, "C6", true, true, 0, some ["Z1"], "Inny", ["F2"], true, 0, 0, 0, 0⟩

/-- A one-item query where the item is an exact ean match. -/
def aExact : SearchArgs := ⟨[pExact], ["X123"], none, none, 1, 10⟩

/-- A one-item query where only the avg figures clear the threshold. -/
def aFuzzy : SearchArgs := ⟨[pFuzzy], ["q"], none, none, 1, 10⟩

/-- A one-item query where the min figures clear the threshold. -/
def aSim : SearchArgs := ⟨[pSim], ["q"], none, none, 1, 10⟩

/-- A three-item query with an active zone filter Z1 and finish filter F1. -/
def aFacet : SearchArgs := ⟨[pZ1F1, pZ2F2, pZ1F2], ["q"], some ["Z1"], some ["F1"], 1, 10⟩

/-- A three-item pool for the pagination witness. -/
def l0 : List Product := [pExact, pFuzzy, pSim]

/-! Helper lemmas. -/

theorem string_length_pos_iff (t : String) : 0 < t.length ↔ t ≠ "" := by
  constructor
  · intro h he
    subst he
    exact absurd h (by decide)
  · intro h
    cases t with
    | mk data =>
      cases data with
      | nil => exact absurd (by decide) h
      | cons c cs => simp [String.length]

theorem ite_pos_eq_max (x : Int) : (if 0 < x then x else 1) = max x 1 := by
  rcases lt_or_le 0 x with h | h
  · rw [if_pos h, max_eq_left (by omega)]
  · rw [if_neg (by omega), max_eq_right (by omega)]

/-- Claim C3, corrected: the full-text search expression strips non-word
characters from every normalized query token and drops empty tokens; a
token of length greater than 3 has its last character removed before the
prefix-wildcard marker is appended, while a token of length at most 3
keeps all its characters; every term, short tokens included, receives
the prefix-wildcard marker, and all terms are joined with logical OR. -/
theorem tsQuery_construction (splitQ : List String) (n : Nat) :
    tsQuery splitQ = String.intercalate " | " (tsQueryTerms splitQ)
    ∧ tsQueryTokens splitQ = (splitQ.map stripNonWord).filter (fun t => t ≠ "")
    ∧ (tsQueryTerms splitQ)[n]? =
        ((tsQueryTokens splitQ)[n]?).map
          (fun term => (if 3 < term.length then term.dropRight 1 else term) ++ ":*") := by
  refine ⟨rfl, ?_, ?_⟩
  · unfold tsQueryTokens
    congr 1
    funext t
    rw [decide_eq_decide]
    exact string_length_pos_iff t
  · simp [tsQueryTerms]

/-- Claim C3 counterexample: a token of length at most 3 is not used
verbatim; the prefix-wildcard marker is appended to it as well. -/
theorem tsQuery_short_token_gets_wildcard :
    tsQuery ["abc"] = "abc:*" ∧ ("abc:*" : String) ≠ "abc" := by
  exact ⟨rfl, by decide⟩

/-- Claim C5, corrected (amended): on token sequences whose tokens are
all non-empty, the perfect-code candidates are each single token plus
each adjacent pair joined with an underscore, in order. -/
theorem perfectCodes_adjacent_pairs (ts : List String) (h : ∀ t ∈ ts, t ≠ "") :
    perfectCodes ts =
      ((ts.zip ts.tail).flatMap (fun pr => [pr.1, pr.1 ++ "_" ++ pr.2]))
        ++ ts.getLast?.toList := by
  induction ts with
  | nil => rfl
  | cons a ts ih =>
    cases ts with
    | nil => rfl
    | cons b rest =>
      have hb : b ≠ "" := h b (by simp)
      have ih' := ih (fun t ht => h t (List.mem_cons_of_mem a ht))
      simp only [perfectCodes, if_neg hb]
      rw [ih']
      simp

/-- Claim C5 witness: the amended statement evaluated on three concrete
non-empty tokens. -/
theorem perfectCodes_adjacent_pairs_witness :
    (("A" : String) ≠ "" ∧ ("B" : String) ≠ "" ∧ ("C" : String) ≠ "")
    ∧ perfectCodes ["A", "B", "C"] = ["A", "A_B", "B", "B_C", "C"] := by
  refine ⟨⟨by decide, by decide, by decide⟩, ?_⟩
  have h := perfectCodes_adjacent_pairs ["A", "B", "C"] (by decide)
  simpa using h

/-- Claim C5 counterexample: when the token after `A` is the empty
string, the JS falsiness test skips the adjacent pair, so the claimed
interleaving is not produced. -/
theorem perfectCodes_empty_token_counterexample :
    perfectCodes ["A", ""] = ["A", ""] ∧ perfectCodes ["A", ""] ≠ ["A", "A_", ""] := by
  exact ⟨rfl, by decide⟩

/-- Claim C6: for every field string and base weight, the n-th token
(0-indexed) of the field is serialized as weight max(weight - n, 1)
followed by a colon and the token, and the serialized tokens are joined
with single spaces. -/
theorem addWeightToString_weight_monotonic (value : String) (weight : Int) (n : Nat) :
    addWeightToString value weight = String.intercalate " " (weightedTokens value weight)
    ∧ (weightedTokens value weight)[n]? =
        (((splitSpaces value).filter (fun v => v ≠ ""))[n]?).map
          (fun v => toString (max (weight - (n : Int)) 1) ++ ":" ++ v) := by
  constructor
  · by_cases h : value = ""
    · subst h
      have hw : weightedTokens "" weight = [] := by
        rw [weightedTokens]
        rw [show (splitSpaces "").filter (fun v => v ≠ "") = [] from by decide]
        rfl
      rw [addWeightToString, if_pos rfl, hw]
      rfl
    · simp [addWeightToString, h]
  · rw [weightedTokens, List.getElem?_mapIdx]
    cases hx : ((splitSpaces value).filter (fun v => v ≠ ""))[n]? with
    | none => rfl
    | some v =>
      simp only [Option.map_some']
      rw [ite_pos_eq_max]

/-- Claim C8 (spec-modelled): connector-word stripping removes only
tokens strictly between the first and last position; the first and last
tokens are never removed, whatever the connector set contains. -/
theorem connector_trimming_preserves_endpoints (t0 tn : String) (ts conn : List String) :
    removeConnectorsBetween (t0 :: ts ++ [tn]) conn =
      t0 :: (ts.filter (fun w => !(conn.map String.toLower).contains w.toLower)) ++ [tn] := by
  cases ts with
  | nil => rfl
  | cons u ts' =>
    simp only [List.cons_append, removeConnectorsBetween]
    rw [show u :: (ts' ++ [tn]) = (u :: ts') ++ [tn] from rfl,
      List.dropLast_concat, List.getLast?_concat]
    simp

theorem hasExact_iff (a : SearchArgs) :
    hasExact a = true ↔ ∃ p ∈ FilteredQuery a, exactMatchPriority a.splitQ p = 2 := by
  simp [hasExact, List.any_eq_true]

theorem hasPartialMatch_iff (a : SearchArgs) :
    hasPartialMatch a = true ↔ ∃ p ∈ FilteredQuery a, exactMatchPriority a.splitQ p = 1 := by
  simp [hasPartialMatch, List.any_eq_true]

theorem exactMatchPriority_cases (splitQ : List String) (p : Product) :
    exactMatchPriority splitQ p = 0 ∨ exactMatchPriority splitQ p = 1
      ∨ exactMatchPriority splitQ p = 2 := by
  unfold exactMatchPriority
  split
  · right; right; rfl
  · split
    · right; left; rfl
    · left; rfl

theorem mem_FilteredQuery_of_mem_RankedResults {a : SearchArgs} {r : Product}
    (h : r ∈ RankedResults a) : r ∈ FilteredQuery a := by
  rcases List.mem_append.mp h with h | h
  · exact (List.mem_filter.mp h).1
  · exact (List.mem_filter.mp h).1

theorem mem_RankedResults_of_mem_DataResults {a : SearchArgs} {r : Product}
    (h : r ∈ DataResults a) : r ∈ RankedResults a := by
  have h1 : r ∈ sortedResults a :=
    List.mem_of_mem_drop (List.mem_of_mem_take h)
  have h2 : r ∈ FinalProductsPool a := List.mem_mergeSort.mp h1
  have h3 : r ∈ ProductsPool a := by
    revert h2
    unfold FinalProductsPool
    cases a.finishFilter <;> intro h2
    · exact h2
    · exact (List.mem_filter.mp h2).1
  revert h3
  unfold ProductsPool
  cases a.zoneFilter <;> intro h3
  · exact h3
  · exact (List.mem_filter.mp h3).1

/-- Claim C1: tier exclusivity is query-wide; if any eligible item is
Exact, every returned item is Exact; else if any is Partial, every
returned item is Partial; only with neither present do the returned
items come from the fuzzy tier (priority 0). -/
theorem tier_exclusivity (a : SearchArgs) :
    ((∃ p ∈ FilteredQuery a, exactMatchPriority a.splitQ p = 2) →
       ∀ r ∈ RankedResults a, exactMatchPriority a.splitQ r = 2)
    ∧ ((¬ ∃ p ∈ FilteredQuery a, exactMatchPriority a.splitQ p = 2) →
       (∃ p ∈ FilteredQuery a, exactMatchPriority a.splitQ p = 1) →
         ∀ r ∈ RankedResults a, exactMatchPriority a.splitQ r = 1)
    ∧ ((¬ ∃ p ∈ FilteredQuery a, exactMatchPriority a.splitQ p = 2) →
       (¬ ∃ p ∈ FilteredQuery a, exactMatchPriority a.splitQ p = 1) →
         ∀ r ∈ RankedResults a, exactMatchPriority a.splitQ r = 0) := by
  refine ⟨?_, ?_, ?_⟩
  · intro hex r hr
    have hexT : hasExact a = true := (hasExact_iff a).mpr hex
    rcases List.mem_append.mp hr with h | h
    · simp only [ExactAndPartialMatches, List.mem_filter] at h
      have hcond := h.2
      rw [hexT] at hcond
      simpa using hcond
    · simp only [SimilarityMatches, List.mem_filter] at h
      have hcond := h.2
      rw [hexT] at hcond
      simp at hcond
  · intro hnex hpa r hr
    have hexF : hasExact a = false := by
      cases hc : hasExact a with
      | false => rfl
      | true => exact absurd ((hasExact_iff a).mp hc) hnex
    have hpaT : hasPartialMatch a = true := (hasPartialMatch_iff a).mpr hpa
    rcases List.mem_append.mp hr with h | h
    · simp only [ExactAndPartialMatches, List.mem_filter] at h
      have hcond := h.2
      rw [hexF, hpaT] at hcond
      simpa using hcond
    · simp only [SimilarityMatches, List.mem_filter] at h
      have hcond := h.2
      rw [hpaT] at hcond
      simp at hcond
  · intro hnex hnpa r hr
    have hFQ : r ∈ FilteredQuery a := mem_FilteredQuery_of_mem_RankedResults hr
    have h2 : exactMatchPriority a.splitQ r ≠ 2 := fun hc => hnex ⟨r, hFQ, hc⟩
    have h1 : exactMatchPriority a.splitQ r ≠ 1 := fun hc => hnpa ⟨r, hFQ, hc⟩
    rcases exactMatchPriority_cases a.splitQ r with h | h | h
    · exact h
    · exact absurd h h1
    · exact absurd h h2

/-- Claim C1 witness: in a pool holding an exact ean match, the exact
item is returned with priority 2. -/
theorem tier_exclusivity_witness :
    exactMatchPriority aExact.splitQ pExact = 2 :=
  (tier_exclusivity aExact).1 ⟨pExact, by decide, by decide⟩ pExact (by decide)

/-- Claim C2, corrected (amended): an item qualifies for the Fuzzy tier
precisely when no Exact or Partial item exists and its min_similarity or
min_similarity_without_worst column strictly exceeds the sensitivity
threshold; equality with the threshold excludes the item. -/
theorem fuzzy_threshold (a : SearchArgs) (p : Product) :
    (p ∈ SimilarityMatches a ↔
      p ∈ FilteredQuery a ∧ hasExact a = false ∧ hasPartialMatch a = false ∧
        (PRODUCTS_QUERY_SENSITIVITY < p.min_similarity ∨
         PRODUCTS_QUERY_SENSITIVITY < p.min_similarity_without_worst))
    ∧ (p.min_similarity ≤ PRODUCTS_QUERY_SENSITIVITY →
       p.min_similarity_without_worst ≤ PRODUCTS_QUERY_SENSITIVITY →
       p ∉ SimilarityMatches a) := by
  have hiff : p ∈ SimilarityMatches a ↔
      p ∈ FilteredQuery a ∧ hasExact a = false ∧ hasPartialMatch a = false ∧
        (PRODUCTS_QUERY_SENSITIVITY < p.min_similarity ∨
         PRODUCTS_QUERY_SENSITIVITY < p.min_similarity_without_worst) := by
    simp [SimilarityMatches, List.mem_filter, Bool.and_eq_true, Bool.not_eq_true',
      and_assoc]
  refine ⟨hiff, ?_⟩
  intro h1 h2 hm
  rcases (hiff.mp hm).2.2.2 with h | h
  · exact absurd h (not_lt.mpr h1)
  · exact absurd h (not_lt.mpr h2)

/-- Claim C2 witness: an item whose min figures exceed the threshold is
selected for the fuzzy tier. -/
theorem fuzzy_threshold_witness : pSim ∈ SimilarityMatches aSim :=
  (fuzzy_threshold aSim pSim).1.mpr ⟨by decide, by decide, by decide, Or.inl (by decide)⟩

/-- Claim C2 counterexample: an eligible item in a fuzzy-tier query
whose avg_similarity and avg_similarity_without_worst both exceed the
threshold is nonetheless excluded, because the query compares the
min_similarity columns. -/
theorem fuzzy_threshold_counterexample :
    PRODUCTS_QUERY_SENSITIVITY < pFuzzy.avg_similarity
    ∧ PRODUCTS_QUERY_SENSITIVITY < pFuzzy.avg_similarity_without_worst
    ∧ pFuzzy ∈ FilteredQuery aFuzzy
    ∧ hasExact aFuzzy = false
    ∧ hasPartialMatch aFuzzy = false
    ∧ pFuzzy ∉ SimilarityMatches aFuzzy := by decide

/-- Claim C4: a stock-ineligible item appears in the results only when
its priority is Exact; the stock filter runs before tier selection,
ranking and pagination. -/
theorem stock_bypass (a : SearchArgs) (r : Product)
    (h : r ∈ RankedResults a ∨ r ∈ DataResults a)
    (hstock : r.isSearchBarEligibleByStock = false) :
    exactMatchPriority a.splitQ r = 2 := by
  have hRR : r ∈ RankedResults a := by
    rcases h with h | h
    · exact h
    · exact mem_RankedResults_of_mem_DataResults h
  have hFQ : r ∈ FilteredQuery a := mem_FilteredQuery_of_mem_RankedResults hRR
  simp only [FilteredQuery, List.mem_filter] at hFQ
  have hcond := hFQ.2
  rw [hstock] at hcond
  simpa using hcond

/-- Claim C4 witness: the stock-ineligible exact ean match is returned
and carries priority 2. -/
theorem stock_bypass_witness :
    pExact.isSearchBarEligibleByStock = false
    ∧ exactMatchPriority aExact.splitQ pExact = 2 :=
  ⟨by decide, stock_bypass aExact pExact (Or.inl (by decide)) (by decide)⟩

theorem rankLE_trans (p q r : Product) (h1 : rankLE p q = true) (h2 : rankLE q r = true) :
    rankLE p r = true := by
  rw [rankLE] at h1 h2 ⊢
  exact decide_eq_true (le_trans (of_decide_eq_true h2) (of_decide_eq_true h1))

theorem rankLE_total (p q : Product) : (rankLE p q || rankLE q p) = true := by
  rw [rankLE, rankLE]
  rcases le_total (rankKey q) (rankKey p) with h | h
  · simp [h]
  · simp [h]

theorem rankLE_iff (x y : Product) :
    rankLE x y = true ↔
      (promotedFlag y < promotedFlag x ∨ promotedFlag y = promotedFlag x ∧
        (y.avg_similarity < x.avg_similarity ∨ y.avg_similarity = x.avg_similarity ∧
          (y.avg_similarity_without_worst < x.avg_similarity_without_worst ∨
            y.avg_similarity_without_worst = x.avg_similarity_without_worst ∧
              (y.categoryPriority < x.categoryPriority ∨ y.categoryPriority = x.categoryPriority ∧
                plcRank y ≤ plcRank x)))) := by
  rw [rankLE, decide_eq_true_iff, rankKey, rankKey]
  simp [Prod.Lex.le_iff]

/-- Claim C7: the tier-selected, filtered items are ordered by promoted
flag, avg_similarity, avg_similarity_without_worst, category priority
and lifecycle rank, all descending, with the lifecycle rank of New above
Normal above everything else. -/
theorem ranking_order (a : SearchArgs) (p : Product) :
    (sortedResults a).Perm (FinalProductsPool a)
    ∧ (sortedResults a).Pairwise (fun x y =>
        promotedFlag y < promotedFlag x ∨ promotedFlag y = promotedFlag x ∧
          (y.avg_similarity < x.avg_similarity ∨ y.avg_similarity = x.avg_similarity ∧
            (y.avg_similarity_without_worst < x.avg_similarity_without_worst ∨
              y.avg_similarity_without_worst = x.avg_similarity_without_worst ∧
                (y.categoryPriority < x.categoryPriority ∨ y.categoryPriority = x.categoryPriority ∧
                  plcRank y ≤ plcRank x))))
    ∧ (p.plc = "Nowość" → plcRank p = 1)
    ∧ (p.plc = "Normalny" → plcRank p = mkRat 1 2)
    ∧ (p.plc ≠ "Nowość" → p.plc ≠ "Normalny" → plcRank p = 0)
    ∧ ((0 : Rat) < mkRat 1 2 ∧ mkRat 1 2 < (1 : Rat)) := by
  refine ⟨?_, ?_, ?_, ?_, ?_, by decide, by decide⟩
  · exact List.mergeSort_perm (FinalProductsPool a) rankLE
  · have hs := List.sorted_mergeSort rankLE_trans rankLE_total (FinalProductsPool a)
    exact hs.imp (fun h => (rankLE_iff _ _).mp h)
  · intro h
    rw [plcRank, if_pos h]
  · intro h
    rw [plcRank, if_neg (by rw [h]; decide), if_pos h]
  · intro h1 h2
    rw [plcRank, if_neg h1, if_neg h2]

/-- Claim C7 witness: the lifecycle conclusions at concrete items. -/
theorem ranking_order_witness :
    plcRank pExact = 1 ∧ plcRank pFuzzy = mkRat 1 2 ∧ plcRank pSim = 0 :=
  ⟨(ranking_order aExact pExact).2.2.1 (by decide),
   (ranking_order aExact pFuzzy).2.2.2.1 (by decide),
   (ranking_order aExact pSim).2.2.2.2.1 (by decide) (by decide)⟩

/-- Claim C9: the page slice is exactly the elements from
(page-1)*limit to page*limit of the full ordering; concatenating pages
1..k reproduces the first k*limit elements with no gaps or duplicates;
concatenating all pagesCount pages reproduces the whole pool; and the
page count is the ceiling of total/limit. -/
theorem pagination_idempotence (l : List Product) (limit k page total : Nat)
    (hpage : 1 ≤ page) (hlimit : 0 < limit) :
    ((List.range k).flatMap (fun i => pageOf l (i + 1) limit) = l.take (k * limit))
    ∧ pageOf l page limit = (l.take (page * limit)).drop ((page - 1) * limit)
    ∧ pagesCount total limit = Nat.ceil ((total : Rat) / (limit : Rat))
    ∧ (List.range (pagesCount l.length limit)).flatMap (fun i => pageOf l (i + 1) limit) = l := by
  have hconcat : ∀ m : Nat,
      (List.range m).flatMap (fun i => pageOf l (i + 1) limit) = l.take (m * limit) := by
    intro m
    induction m with
    | zero => simp
    | succ m ih =>
      rw [List.range_succ, List.flatMap_append, ih]
      simp only [List.flatMap_cons, List.flatMap_nil, List.append_nil]
      rw [pageOf, Nat.add_sub_cancel, Nat.succ_mul, List.take_add]
  refine ⟨hconcat k, ?_, rfl, ?_⟩
  · rw [pageOf, List.take_drop]
    have : (page - 1) * limit + limit = page * limit := by
      rcases Nat.exists_eq_add_of_le hpage with ⟨m, hm⟩
      subst hm
      simp [Nat.add_sub_cancel_left, Nat.add_mul, Nat.add_comm]
    rw [this]
  · rw [hconcat]
    apply List.take_of_length_le
    have hle := Nat.le_ceil ((l.length : Rat) / (limit : Rat))
    have hlim0 : (0 : Rat) < (limit : Rat) := by exact_mod_cast hlimit
    have h1 : (l.length : Rat) ≤ (Nat.ceil ((l.length : Rat) / (limit : Rat)) : Rat) * (limit : Rat) := by
      rw [← div_le_iff₀ hlim0]
      exact hle
    rw [pagesCount]
    exact_mod_cast h1

/-- Claim C9 witness: a three-item pool at page size 2. -/
theorem pagination_idempotence_witness :
    (1 ≤ 1 ∧ 0 < 2)
    ∧ pageOf l0 1 2 = (l0.take (1 * 2)).drop ((1 - 1) * 2) :=
  ⟨⟨by decide, by decide⟩, (pagination_idempotence l0 2 2 1 3 (by decide) (by decide)).2.1⟩

/-- Claim C10: the zone facet is computed from the tier-selected pool
before the zone and finish filters, the finish facet after the zone
filter but before the finish filter, and total_count after both
filters, so the three aggregates range over three different pools. -/
theorem facet_pool_asymmetry (a : SearchArgs) (zs fs : Option (List String)) :
    FlattenedCategoryZones { a with zoneFilter := zs, finishFilter := fs }
      = FlattenedCategoryZones { a with zoneFilter := none, finishFilter := none }
    ∧ finishesFacet { a with finishFilter := fs } = finishesFacet { a with finishFilter := none }
    ∧ totalCount a = (FinalProductsPool a).length
    ∧ ("Z2" ∈ FlattenedCategoryZones aFacet
        ∧ aFacet.zoneFilter = some ["Z1"]
        ∧ pZ2F2 ∉ ProductsPool aFacet
        ∧ "F2" ∈ finishesFacet aFacet
        ∧ aFacet.finishFilter = some ["F1"]
        ∧ pZ1F2 ∉ FinalProductsPool aFacet
        ∧ totalCount aFacet = 1) := by
  refine ⟨rfl, rfl, rfl, by decide⟩

end Search
